import Mathlib

/-!
Shallow embedding of the benchmark engine of
`sql-query-optimization-benchmarking` (`benchmarks/run_benchmarks.py` and
`benchmarks/analyze_results.py`), together with theorems settling the frozen
claims about its specification.

Modelling conventions:
* Python floats (durations in milliseconds, percentile parameters) are
  modelled as exact rationals `ℚ`; `int(x)` truncation on the non-negative
  values arising here is `Int.floor`.
* `sys.exit(code)` and raised exceptions are modelled with `Except`; Python's
  class distinction between `SystemExit` (a `BaseException` that an
  `except Exception` clause does NOT catch) and ordinary `Exception`s is kept
  explicit in the `PyError` type.
* `statistics.stdev` involves a square root, which has no exact rational
  value; since `stdev ≥ 0` it is uniquely determined by its square, so the
  embedding stores the square (the sample variance) in the field `stddevSq`.
  The code paths that bypass the square root (`None`, and the literal `0.0`
  fallbacks) are embedded directly (`0.0` squared is `0`).
-/

/-- Embedding of Python `sorted(timings)` (line 153): ascending stable sort.
Over a linear order every correct sort of a list yields the same list, so
insertion sort is a faithful model of Timsort here. -/
def sortTimings (l : List ℚ) : List ℚ :=
  List.insertionSort (· ≤ ·) l

/-- Embedding of Python `min(timings) if timings else None` (line 169):
`min` of a non-empty iterable is a left fold of binary `min`. -/
def pyMin : List ℚ → Option ℚ
  | [] => none
  | x :: xs => some (xs.foldl min x)

/-- Embedding of Python `max(timings) if timings else None` (line 170). -/
def pyMax : List ℚ → Option ℚ
  | [] => none
  | x :: xs => some (xs.foldl max x)

/-- Embedding of Python `statistics.mean(timings) if timings else None`
(line 171): the arithmetic mean `sum / n`. -/
def pyMean (l : List ℚ) : Option ℚ :=
  if l = [] then none else some (l.sum / l.length)

/-- Embedding of Python `statistics.median(timings)` (lines 172-173): sort,
then take the middle element for odd length and the average of the two
middle elements for even length; `None` on an empty list (the code guards
the empty case with `if timings else None`). -/
def pyMedian (l : List ℚ) : Option ℚ :=
  let s := sortTimings l
  let n := s.length
  if n = 0 then none
  else if n % 2 = 1 then some (s.getD (n / 2) 0)
  else some ((s.getD (n / 2 - 1) 0 + s.getD (n / 2) 0) / 2)

/-- Embedding of the nested `percentile` helper (lines 157-164): nearest-rank
on an already-sorted list, `index = int((p / 100.0) * len(sorted_list))`
clamped to `len - 1`; `None` on the empty list. For the non-negative `p`
used by the code, Python's `int()` truncation is `Int.floor`. -/
def percentile (sorted_list : List ℚ) (p : ℚ) : Option ℚ :=
  if sorted_list = [] then none
  else
    let index := (p / 100 * (sorted_list.length : ℚ)).floor.toNat
    some (sorted_list.getD (min index (sorted_list.length - 1)) 0)

/-- Embedding of the sample variance, the square of Python
`statistics.stdev(timings)` (divisor `n - 1`); only ever used by the code
under a `len(timings) > 1` guard. -/
def sampleVarianceQ (l : List ℚ) : ℚ :=
  let m := l.sum / l.length
  (l.map (fun x => (x - m) ^ 2)).sum / ((l.length : ℚ) - 1)

/-- The `stats` dictionary built by `run_benchmark` (lines 166-177). -/
structure RunStats where
  runs : Nat
  raw_timings : List ℚ
  min : Option ℚ
  max : Option ℚ
  mean : Option ℚ
  median : Option ℚ
  p50 : Option ℚ
  p95 : Option ℚ
  p99 : Option ℚ
  stddevSq : Option ℚ

/-- Embedding of the statistics block of `run_benchmark`
(lines 152-177): `timings_sorted = sorted(timings)`, then each field exactly
as the source computes it (`p50` is `statistics.median`, same as `median`;
`stddev` is `statistics.stdev(timings) if len(timings) > 1 else 0.0`,
stored here as its square). -/
def run_benchmark_stats (timings : List ℚ) (measurement_runs : Nat) : RunStats :=
  let timings_sorted := sortTimings timings
  { runs := measurement_runs
    raw_timings := timings
    min := pyMin timings
    max := pyMax timings
    mean := pyMean timings
    median := pyMedian timings
    p50 := pyMedian timings
    p95 := percentile timings_sorted 95
    p99 := percentile timings_sorted 99
    stddevSq := if 1 < timings.length then some (sampleVarianceQ timings) else some 0 }

/-- A psycopg2 error raised during statement execution; a subclass of Python
`Exception`, so `except Exception` clauses catch it. -/
structure DBError where
  msg : String
deriving DecidableEq

/-- Python's exception-class split that matters to this code: `SystemExit`
(raised by `sys.exit(code)`) derives from `BaseException` only, so an
`except Exception` clause does NOT catch it, while ordinary exceptions do
get caught. -/
inductive PyError where
  | systemExit (code : Nat)
  | exc (msg : String)
deriving DecidableEq

/-- Outcome of one `psycopg2.connect` attempt: either a usable connection or
an `OperationalError` (store unreachable). -/
inductive ConnOutcome where
  | ok
  | operationalError
deriving DecidableEq

/-- Embedding of `get_db_connection` (lines 41-50): on `OperationalError` it
prints and calls `sys.exit(1)`, i.e. raises `SystemExit 1`. -/
def get_db_connection (c : ConnOutcome) : Except PyError Unit :=
  match c with
  | .ok => .ok ()
  | .operationalError => .error (.systemExit 1)

/-- Embedding of `execute_query_timing` (lines 94-116), the latency-mode
probe. Its environment is the outcome of `cur.execute(query)` plus
`cur.fetchall()`: either completion after `dt` milliseconds, or a raised
database error. The function has only a `finally` (cursor close), no
`except`: an execution error propagates to the caller. -/
def execute_query_timing (execOutcome : Except DBError ℚ) : Except DBError ℚ :=
  match execOutcome with
  | .ok dt => .ok dt
  | .error e => .error e

/-- Embedding of `worker_execute_query` (lines 318-349), the throughput-mode
probe. Its environment is the worker's own connection attempt and the
outcome of statement execution. The body is wrapped in
`try ... except Exception ... finally`: an ordinary exception yields
`(worker_id, 0.0, False)`, but the `SystemExit` raised inside
`get_db_connection` is not an `Exception` and escapes. -/
def worker_execute_query (conn : ConnOutcome) (execOutcome : Except DBError ℚ)
    (worker_id : Nat) : Except PyError (Nat × ℚ × Bool) :=
  match get_db_connection conn with
  | .error e => .error e
  | .ok _ =>
      match execOutcome with
      | .ok dt => .ok (worker_id, dt, true)
      | .error _ => .ok (worker_id, 0, false)

/-- Embedding of the collector's handling of one completed future in
`run_throughput_benchmark` (lines 419-427 and 432-441):
`worker_id, exec_time, success = future.result(...)` rethrows whatever the
worker raised; `success` increments the completed count and records the
latency, `not success` increments the failed count, and `except Exception`
turns an ordinary exception into a failed count — but a `SystemExit`
propagates and aborts the run. `ok (some t)` means a recorded latency,
`ok none` means one more failed query. -/
def collect_future (r : Except PyError (Nat × ℚ × Bool)) :
    Except PyError (Option ℚ) :=
  match r with
  | .ok (_, t, true) => .ok (some t)
  | .ok (_, _, false) => .ok none
  | .error (.exc _) => .ok none
  | .error (.systemExit c) => .error (.systemExit c)

/-- A parsed catalog entry `(query_number, description, sql_query)`. -/
def PQuery := Nat × String × String

/-- Whitespace as stripped by Python `str.strip()` and matched by the regex
class `\s`: space, tab, newline, carriage return, vertical tab and form feed
(the content is modelled as ASCII). -/
def isSpaceChar (c : Char) : Bool :=
  c = ' ' || c = '\t' || c = '\n' || c = '\r' || c = Char.ofNat 11 || c = Char.ofNat 12

/-- Splits a character sequence into its `\n`-separated lines; used on a
match's body text, which the code splits with `sql.split('\n')` (line 77). -/
def splitLinesAux : List Char → List Char → List (List Char)
  | [], acc => [acc.reverse]
  | c :: cs, acc =>
      if c = '\n' then acc.reverse :: splitLinesAux cs []
      else splitLinesAux cs (c :: acc)

/-- Embedding of Python `str.strip()`. -/
def trimChars (l : List Char) : List Char :=
  ((l.dropWhile isSpaceChar).reverse.dropWhile isSpaceChar).reverse

/-- Value of a string of decimal digits. -/
def digitsToNat (l : List Char) : Nat :=
  l.foldl (fun n c => 10 * n + (c.toNat - 48)) 0

/-- Matcher for the literal head of the catalog pattern (line 66): does the
text begin, at this very position, with `-- Query ` followed by one or more
digits and a colon? The pattern has no `^` anchor, so callers try this at
every position. Returns the digit group and the suffix after the colon. -/
def matchHeaderPrefix (s : List Char) : Option (List Char × List Char) :=
  if ("-- Query ".data).isPrefixOf s then
    let rest := s.drop 9
    let digits := rest.takeWhile (fun c => c.isDigit)
    let after := rest.drop digits.length
    if digits ≠ [] && after.take 1 = [':'] then some (digits, after.drop 1)
    else none
  else none

/-- The lookahead `(?=\n-- Query \d+:|$)` of the catalog pattern, tested at
one position: it holds at a newline that is followed by another header, at
the end of the input, and (`$` without `re.MULTILINE`) just before a
trailing final newline. -/
def lookaheadStops : List Char → Bool
  | [] => true
  | '\n' :: u => u.isEmpty || (matchHeaderPrefix u).isSome
  | _ => false

/-- The lazy body group `(.*?)` of the catalog pattern under `re.DOTALL`:
consume characters until the first position where the lookahead holds.
Returns the body together with the remainder of the input at the match
end. -/
def scanBody : List Char → List Char × List Char
  | [] => ([], [])
  | c :: rest =>
      if lookaheadStops (c :: rest) then ([], c :: rest)
      else
        let (b, r) := scanBody rest
        (c :: b, r)

/-- Completion of a match whose `-- Query N:` head succeeded: `\s*` greedily
skips whitespace (it may cross newlines, which is how a header whose
description sits on the next line really matches), then `([^\n]+)` takes the
non-empty run of same-line characters as the raw description, then the
literal `\n` must follow, then the lazy body runs to the lookahead. The one
regex behaviour not reproduced is the backtracking corner where everything
after the colon is whitespace ending in a newline: there the real match
captures a whitespace-only description and a whitespace-only body, which
`parse_queries` then discards because the cleaned SQL is empty — so the
resulting query list is the same as for this model's `none`. -/
def completeMatch (digits afterColon : List Char) :
    Option ((Nat × List Char × List Char) × List Char) :=
  let s4 := afterColon.dropWhile isSpaceChar
  let desc := s4.takeWhile (fun c => c ≠ '\n')
  if desc = [] then none
  else
    match s4.drop desc.length with
    | '\n' :: s6 =>
        let (body, r) := scanBody s6
        some ((digitsToNat digits, desc, body), r)
    | _ => none

/-- Embedding of `re.finditer(pattern, content, re.DOTALL)` (lines 66-67):
find the leftmost match — the pattern is unanchored, so it may start in the
middle of a line — emit its groups and continue scanning at the match end.
`fuel` only bounds the recursion: every step either slides the scan position
one character forward or emits a match that consumed at least the eleven
characters of its header, so with `fuel` greater than the input length the
`fuel = 0` case is never reached (`finditerAux_fuel_congr` below). -/
def finditerAux : Nat → List Char → List (Nat × List Char × List Char)
  | 0, _ => []
  | fuel + 1, s =>
      match s with
      | [] => []
      | _ :: tail =>
          match matchHeaderPrefix s with
          | some (digits, afterColon) =>
              match completeMatch digits afterColon with
              | some (g, r) => g :: finditerAux fuel r
              | none => finditerAux fuel tail
          | none => finditerAux fuel tail

/-- Embedding of the SQL cleanup of `parse_queries` (lines 75-86): strip each
body line, drop empty and `--`-comment lines, join with single spaces, drop
one trailing semicolon. -/
def cleanSql (body : List (List Char)) : List Char :=
  let sql_lines := (body.map trimChars).filter
    (fun l => !l.isEmpty && !(("--".data).isPrefixOf l))
  let sql_query := List.intercalate [' '] sql_lines
  if sql_query.getLast? = some ';' then sql_query.dropLast else sql_query

/-- Embedding of the match loop of `parse_queries` (lines 65-91): run the
pattern over the content, strip each match's description (`group(2).strip()`)
and clean its body, and keep one catalog entry per match whose cleaned SQL
is non-empty. -/
def extractQueries (content : String) : List PQuery :=
  (finditerAux (content.data.length + 1) content.data).filterMap fun g =>
    let sql := cleanSql (splitLinesAux g.2.2 [])
    if sql = [] then none else some (g.1, String.mk (trimChars g.2.1), String.mk sql)

/-- Embedding of `parse_queries` (lines 53-91). The file system is modelled
by an `Option String`: `none` means `queries_file.exists()` is false, in
which case the function prints and calls `sys.exit(1)`; otherwise it returns
the entries extracted from the file's content — an empty or header-free
content yields the empty list, not an error. -/
def parse_queries (file : Option String) : Except Nat (List PQuery) :=
  match file with
  | none => .error 1
  | some content => .ok (extractQueries content)

/-- Warmup loop of `run_benchmark` (lines 136-137): `warmup_runs` sequential
calls of `execute_query_timing`, results discarded. `probe k` is the cursor
execution outcome of the `k`-th probe call issued on the connection, and
`calls` the number of calls issued so far. The loop has no `except`: a
raised database error aborts it (and the whole latency run), carrying the
error together with the number of calls issued up to and including the
raising one. -/
def warmupLoop (probe : Nat → Except DBError ℚ) : Nat → Nat → Except (DBError × Nat) Nat
  | 0, calls => .ok calls
  | n + 1, calls =>
      match execute_query_timing (probe calls) with
      | .ok _ => warmupLoop probe n (calls + 1)
      | .error e => .error (e, calls + 1)

/-- Measurement loop of `run_benchmark` (lines 143-146): `measurement_runs`
sequential calls of `execute_query_timing`, each appending its duration to
`timings`. Like the warmup loop it has no `except`: a raised database error
aborts the loop mid-run with the samples collected so far discarded. -/
def measureLoop (probe : Nat → Except DBError ℚ) :
    Nat → Nat → Except (DBError × Nat) (List ℚ × Nat)
  | 0, calls => .ok ([], calls)
  | n + 1, calls =>
      match execute_query_timing (probe calls) with
      | .ok timing =>
          match measureLoop probe n (calls + 1) with
          | .ok (rest, calls') => .ok (timing :: rest, calls')
          | .error e => .error e
      | .error e => .error (e, calls + 1)

/-- Embedding of `run_benchmark` (lines 119-179): warmups, then measurement
runs, then the statistics block — reached only when every probe call
returned. A probe call that raises propagates out of `run_benchmark`
(there is no `except` anywhere on this path), so the function either returns
the statistics with the final probe-call counter, or the error with the
number of calls issued when it was raised (`calls0` is the counter's value
on entry). -/
def run_benchmark (probe : Nat → Except DBError ℚ)
    (warmup_runs measurement_runs calls0 : Nat) :
    Except (DBError × Nat) (RunStats × Nat) :=
  match warmupLoop probe warmup_runs calls0 with
  | .error e => .error e
  | .ok calls1 =>
      match measureLoop probe measurement_runs calls1 with
      | .error e => .error e
      | .ok (timings, calls2) => .ok (run_benchmark_stats timings measurement_runs, calls2)

/-- The `stats` dictionary built by `run_throughput_benchmark`
(lines 457-487). -/
structure ThroughputStats where
  total_queries : Nat
  failed_queries : Nat
  duration_seconds : ℚ
  qps : ℚ
  raw_timings : List ℚ
  min : Option ℚ
  max : Option ℚ
  mean : Option ℚ
  median : Option ℚ
  p50 : Option ℚ
  p95 : Option ℚ
  p99 : Option ℚ
  stddevSq : Option ℚ

/-- Embedding of the per-query statistics block of `run_throughput_benchmark`
(lines 443-487). `execution_times` is the collected list of successful
latencies (each completed query appends exactly one entry, so
`completed_queries = execution_times.length`), `failed_queries` the failure
count, `actual_duration` the measured elapsed time. The non-empty branch
computes the same aggregates as the latency path plus `raw_timings`
truncated to `execution_times[:1000]`; the empty branch is all literals,
with `min..p99` set to `None` but `stddev` set to `0.0`. -/
def run_throughput_stats (execution_times : List ℚ) (failed_queries : Nat)
    (actual_duration : ℚ) : ThroughputStats :=
  let completed_queries := execution_times.length
  let qps : ℚ := if 0 < actual_duration then completed_queries / actual_duration else 0
  if execution_times ≠ [] then
    let timings_sorted := sortTimings execution_times
    { total_queries := completed_queries
      failed_queries := failed_queries
      duration_seconds := actual_duration
      qps := qps
      raw_timings := execution_times.take 1000
      min := pyMin execution_times
      max := pyMax execution_times
      mean := pyMean execution_times
      median := pyMedian execution_times
      p50 := pyMedian execution_times
      p95 := percentile timings_sorted 95
      p99 := percentile timings_sorted 99
      stddevSq := if 1 < execution_times.length then some (sampleVarianceQ execution_times)
        else some 0 }
  else
    { total_queries := 0
      failed_queries := failed_queries
      duration_seconds := actual_duration
      qps := 0
      raw_timings := []
      min := none
      max := none
      mean := none
      median := none
      p50 := none
      p95 := none
      p99 := none
      stddevSq := some 0 }

/-- Embedding of `run_throughput_benchmark` (lines 352-539) up to its
deadline-driven concurrent work loop, which is abstracted by `work`: given
the parsed queries it returns the per-query results together with the number
of probe calls it issued. The parameter validation (lines 366-373) runs
first — `sys.exit(1)` on out-of-range `concurrency` or `duration_seconds` —
then the catalog is parsed (`sys.exit(1)` if the file is missing), and only
then does any benchmark work start. The result pairs the outcome with the
number of probe calls issued. -/
def run_throughput_benchmark {α : Type} (concurrency duration_seconds : Int)
    (catalogFile : Option String) (work : List PQuery → α × Nat) :
    Except Nat α × Nat :=
  if concurrency < 1 ∨ concurrency > 16 then (.error 1, 0)
  else if duration_seconds < 20 ∨ duration_seconds > 60 then (.error 1, 0)
  else
    match parse_queries catalogFile with
    | .error code => (.error code, 0)
    | .ok queries =>
        let (res, probes) := work queries
        (.ok res, probes)

/-- Embedding of `calculate_speedup` in `benchmarks/analyze_results.py`
(lines 46-61): `None` when the with-index value is `None` or `0`, `None`
when the no-index value is `None`, otherwise the ratio
`no_index_value / with_index_value`. -/
def calculate_speedup (no_index_value with_index_value : Option ℚ) : Option ℚ :=
  match with_index_value with
  | none => none
  | some w =>
      if w = 0 then none
      else
        match no_index_value with
        | none => none
        | some nv => some (nv / w)

theorem foldl_min_mem : ∀ (xs : List ℚ) (x : ℚ), xs.foldl min x ∈ x :: xs
  | [], x => by simp
  | a :: as, x => by
    have h := foldl_min_mem as (min x a)
    simp only [List.foldl_cons]
    rcases List.mem_cons.mp h with h1 | h2
    · rcases min_choice x a with hc | hc
      · rw [h1, hc]; exact List.mem_cons_self _ _
      · rw [h1, hc]; exact List.mem_cons_of_mem _ (List.mem_cons_self _ _)
    · exact List.mem_cons_of_mem _ (List.mem_cons_of_mem _ h2)

theorem foldl_min_le : ∀ (xs : List ℚ) (x y : ℚ), y ∈ x :: xs → xs.foldl min x ≤ y
  | [], x, y, hy => by
      simp only [List.mem_cons, List.not_mem_nil, or_false] at hy
      simp [hy]
  | a :: as, x, y, hy => by
    simp only [List.foldl_cons]
    have hmin : as.foldl min (min x a) ≤ min x a :=
      foldl_min_le as (min x a) (min x a) (List.mem_cons_self _ _)
    rcases List.mem_cons.mp hy with rfl | hy2
    · exact le_trans hmin (min_le_left _ _)
    · rcases List.mem_cons.mp hy2 with rfl | hy3
      · exact le_trans hmin (min_le_right _ _)
      · exact foldl_min_le as (min x a) y (List.mem_cons_of_mem _ hy3)

theorem foldl_max_mem : ∀ (xs : List ℚ) (x : ℚ), xs.foldl max x ∈ x :: xs
  | [], x => by simp
  | a :: as, x => by
    have h := foldl_max_mem as (max x a)
    simp only [List.foldl_cons]
    rcases List.mem_cons.mp h with h1 | h2
    · rcases max_choice x a with hc | hc
      · rw [h1, hc]; exact List.mem_cons_self _ _
      · rw [h1, hc]; exact List.mem_cons_of_mem _ (List.mem_cons_self _ _)
    · exact List.mem_cons_of_mem _ (List.mem_cons_of_mem _ h2)

theorem le_foldl_max : ∀ (xs : List ℚ) (x y : ℚ), y ∈ x :: xs → y ≤ xs.foldl max x
  | [], x, y, hy => by
      simp only [List.mem_cons, List.not_mem_nil, or_false] at hy
      simp [hy]
  | a :: as, x, y, hy => by
    simp only [List.foldl_cons]
    have hmax : max x a ≤ as.foldl max (max x a) :=
      le_foldl_max as (max x a) (max x a) (List.mem_cons_self _ _)
    rcases List.mem_cons.mp hy with rfl | hy2
    · exact le_trans (le_max_left _ _) hmax
    · rcases List.mem_cons.mp hy2 with rfl | hy3
      · exact le_trans (le_max_right _ _) hmax
      · exact le_foldl_max as (max x a) y (List.mem_cons_of_mem _ hy3)

/-- Specification of the embedded Python `min`: on a non-empty list it
returns an element that lower-bounds the list. -/
theorem pyMin_spec (l : List ℚ) (h : l ≠ []) :
    ∃ m, pyMin l = some m ∧ m ∈ l ∧ ∀ y ∈ l, m ≤ y := by
  match l, h with
  | x :: xs, _ =>
      exact ⟨xs.foldl min x, rfl, foldl_min_mem xs x, fun y hy => foldl_min_le xs x y hy⟩

/-- Specification of the embedded Python `max`: on a non-empty list it
returns an element that upper-bounds the list. -/
theorem pyMax_spec (l : List ℚ) (h : l ≠ []) :
    ∃ m, pyMax l = some m ∧ m ∈ l ∧ ∀ y ∈ l, y ≤ m := by
  match l, h with
  | x :: xs, _ =>
      exact ⟨xs.foldl max x, rfl, foldl_max_mem xs x, fun y hy => le_foldl_max xs x y hy⟩

theorem sortTimings_sorted (l : List ℚ) : (sortTimings l).Sorted (· ≤ ·) :=
  List.sorted_insertionSort _ l

theorem sortTimings_perm (l : List ℚ) : (sortTimings l).Perm l :=
  List.perm_insertionSort _ l

theorem sortTimings_length (l : List ℚ) : (sortTimings l).length = l.length :=
  (sortTimings_perm l).length_eq

theorem sortTimings_ne_nil (l : List ℚ) (h : l ≠ []) : sortTimings l ≠ [] := by
  intro hs
  apply h
  have := sortTimings_length l
  rw [hs] at this
  exact List.length_eq_zero.mp this.symm

theorem sortTimings_getD_mem (l : List ℚ) (i : Nat) (h : i < l.length) :
    (sortTimings l).getD i 0 ∈ l := by
  have h' : i < (sortTimings l).length := by rw [sortTimings_length]; exact h
  rw [List.getD_eq_getElem _ _ h']
  exact (sortTimings_perm l).mem_iff.mp (List.getElem_mem h')

theorem sortTimings_getD_mono (l : List ℚ) {i j : Nat} (hij : i ≤ j) (hj : j < l.length) :
    (sortTimings l).getD i 0 ≤ (sortTimings l).getD j 0 := by
  have hj' : j < (sortTimings l).length := by rw [sortTimings_length]; exact hj
  have hi' : i < (sortTimings l).length := lt_of_le_of_lt hij hj'
  rw [List.getD_eq_getElem _ _ hi', List.getD_eq_getElem _ _ hj']
  have := (sortTimings_sorted l).rel_get_of_le
    (a := ⟨i, hi'⟩) (b := ⟨j, hj'⟩) (Fin.mk_le_mk.mpr hij)
  simpa using this

theorem floorIndex_eq (a n : ℕ) : ((a : ℚ) / 100 * (n : ℚ)).floor.toNat = a * n / 100 := by
  have h2 : ((a : ℚ) / 100 * (n : ℚ)).floor = ⌊((a * n : ℕ) : ℚ) / ((100 : ℕ) : ℚ)⌋ := by
    have h : ((a : ℚ) / 100 * (n : ℚ)) = ((a * n : ℕ) : ℚ) / ((100 : ℕ) : ℚ) := by
      push_cast; ring
    rw [← h]; rfl
  rw [h2, Int.floor_toNat, Nat.floor_div_eq_div]

/-- Closed form of the embedded `percentile` at a natural percentile
parameter: nearest-rank index `a * n / 100` (natural division) clamped to
`n - 1`. -/
theorem percentile_eq (s : List ℚ) (hs : s ≠ []) (a : ℕ) :
    percentile s (a : ℚ) = some (s.getD (min (a * s.length / 100) (s.length - 1)) 0) := by
  unfold percentile
  rw [if_neg hs, floorIndex_eq]

/-- Specification of the embedded Python `statistics.median`: on a non-empty
list it returns a value above every lower bound of the list and below every
sorted entry from the upper-middle index onward. -/
theorem pyMedian_spec (l : List ℚ) (h : l ≠ []) :
    ∃ v, pyMedian l = some v ∧
      (∀ m, (∀ y ∈ l, m ≤ y) → m ≤ v) ∧
      ∀ j, l.length / 2 ≤ j → j < l.length → v ≤ (sortTimings l).getD j 0 := by
  have hn0 : l.length ≠ 0 := fun hc => h (List.length_eq_zero.mp hc)
  have hpos : 0 < l.length := Nat.pos_of_ne_zero hn0
  have hlen : (sortTimings l).length = l.length := sortTimings_length l
  have hmidlt : l.length / 2 < l.length := Nat.div_lt_self hpos one_lt_two
  simp only [pyMedian, hlen]
  rw [if_neg hn0]
  by_cases hodd : l.length % 2 = 1
  · rw [if_pos hodd]
    refine ⟨_, rfl, ?_, ?_⟩
    · intro m hm
      exact hm _ (sortTimings_getD_mem l _ hmidlt)
    · intro j hj hjn
      exact sortTimings_getD_mono l hj hjn
  · rw [if_neg hodd]
    have hm1le : l.length / 2 - 1 ≤ l.length / 2 := Nat.sub_le _ _
    have hab : (sortTimings l).getD (l.length / 2 - 1) 0
        ≤ (sortTimings l).getD (l.length / 2) 0 :=
      sortTimings_getD_mono l hm1le hmidlt
    refine ⟨_, rfl, ?_, ?_⟩
    · intro m hm
      have h1 := hm _ (sortTimings_getD_mem l _ (lt_of_le_of_lt hm1le hmidlt))
      have h2 := hm _ (sortTimings_getD_mem l _ hmidlt)
      linarith
    · intro j hj hjn
      have hb := sortTimings_getD_mono l hj hjn
      linarith

theorem warmupLoop_ok (dur : Nat → ℚ) (n c : Nat) :
    warmupLoop (fun k => Except.ok (dur k)) n c = .ok (c + n) := by
  induction n generalizing c with
  | zero => simp [warmupLoop]
  | succ k ih =>
      show warmupLoop (fun k => Except.ok (dur k)) k (c + 1) = Except.ok (c + (k + 1))
      rw [ih (c + 1)]
      congr 1
      omega

theorem measureLoop_ok (dur : Nat → ℚ) (n c : Nat) :
    measureLoop (fun k => Except.ok (dur k)) n c
      = .ok ((List.range n).map (fun i => dur (c + i)), c + n) := by
  induction n generalizing c with
  | zero => simp [measureLoop]
  | succ k ih =>
      have hstep : measureLoop (fun k => Except.ok (dur k)) (k + 1) c
          = match measureLoop (fun k => Except.ok (dur k)) k (c + 1) with
            | .ok (rest, calls2) => .ok (dur c :: rest, calls2)
            | .error e => .error e := rfl
      rw [hstep, ih (c + 1)]
      show Except.ok (dur c :: (List.range k).map (fun i => dur (c + 1 + i)), c + 1 + k)
        = Except.ok ((List.range (k + 1)).map (fun i => dur (c + i)), c + (k + 1))
      refine congrArg Except.ok (Prod.ext ?_ (by omega))
      show dur c :: (List.range k).map (fun i => dur (c + 1 + i))
        = ((List.range (k + 1)).map (fun i => dur (c + i)))
      rw [List.range_succ_eq_map, List.map_cons, List.map_map]
      simp only [Nat.add_zero]
      congr 1
      apply List.map_congr_left
      intro i _
      simp only [Function.comp_apply, Nat.succ_eq_add_one]
      congr 1
      omega

theorem scanBody_rest_length_le : ∀ s : List Char, (scanBody s).2.length ≤ s.length := by
  intro s
  induction s with
  | nil => simp [scanBody]
  | cons c rest ih =>
      rw [scanBody]
      by_cases h : lookaheadStops (c :: rest) = true
      · rw [if_pos h]
      · rw [if_neg h]
        show (scanBody rest).2.length ≤ (c :: rest).length
        simp only [List.length_cons]
        omega

theorem matchHeaderPrefix_length_le {s digits afterColon : List Char}
    (h : matchHeaderPrefix s = some (digits, afterColon)) :
    afterColon.length + 11 ≤ s.length := by
  simp only [matchHeaderPrefix] at h
  split at h
  case isFalse => exact absurd h (by simp)
  case isTrue hpre =>
    split at h
    case isFalse => exact absurd h (by simp)
    case isTrue hcond =>
      rw [Option.some.injEq, Prod.mk.injEq] at h
      obtain ⟨hd, ha⟩ := h
      have hlen9 : 9 ≤ s.length := by
        have hp := (List.isPrefixOf_iff_prefix.mp hpre).length_le
        simpa using hp
      rw [Bool.and_eq_true] at hcond
      obtain ⟨hc1, hc2⟩ := hcond
      have hdig : 1 ≤ ((s.drop 9).takeWhile (fun c => c.isDigit)).length := by
        have hne : (s.drop 9).takeWhile (fun c => c.isDigit) ≠ [] := by
          simpa using hc1
        have := List.length_pos.mpr hne
        omega
      have hdigle : ((s.drop 9).takeWhile (fun c => c.isDigit)).length ≤ (s.drop 9).length :=
        (List.takeWhile_sublist _).length_le
      have hafter : 1 ≤
          (((s.drop 9).drop ((s.drop 9).takeWhile (fun c => c.isDigit)).length)).length := by
        have h2' : ((((s.drop 9).drop
            ((s.drop 9).takeWhile (fun c => c.isDigit)).length)).take 1) = [':'] := by
          simpa using hc2
        have := congrArg List.length h2'
        rw [List.length_take] at this
        simp only [List.length_cons, List.length_nil] at this
        omega
      rw [← ha]
      simp only [List.length_drop] at *
      omega

theorem completeMatch_rest_le {digits afterColon : List Char}
    {g : Nat × List Char × List Char} {r : List Char}
    (h : completeMatch digits afterColon = some (g, r)) :
    r.length ≤ afterColon.length := by
  simp only [completeMatch] at h
  split at h
  case isTrue => exact absurd h (by simp)
  case isFalse hdesc =>
    split at h
    case h_2 => exact absurd h (by simp)
    case h_1 s6 heq =>
      rw [Option.some.injEq, Prod.mk.injEq] at h
      obtain ⟨_, hr⟩ := h
      have hscan : (scanBody s6).2.length ≤ s6.length := scanBody_rest_length_le s6
      have hlen : s6.length + 1 =
          ((afterColon.dropWhile isSpaceChar).drop
            ((afterColon.dropWhile isSpaceChar).takeWhile (fun c => c ≠ '\n')).length).length := by
        rw [heq]
        simp
      have hdw : (afterColon.dropWhile isSpaceChar).length ≤ afterColon.length :=
        (List.dropWhile_sublist _).length_le
      rw [← hr]
      simp only [List.length_drop] at hlen
      omega

theorem finditerAux_fuel_congr :
    ∀ f₁ : Nat, ∀ (s : List Char) (f₂ : Nat), s.length < f₁ → s.length < f₂ →
      finditerAux f₁ s = finditerAux f₂ s := by
  intro f₁
  induction f₁ with
  | zero => intro s f₂ h1 _; exact absurd h1 (Nat.not_lt_zero _)
  | succ f ih =>
      intro s f₂ h1 h2
      match f₂, h2 with
      | f2p + 1, h2 =>
        simp only [finditerAux]
        cases s with
        | nil => rfl
        | cons c tail =>
            simp only [List.length_cons] at h1 h2
            cases hm : matchHeaderPrefix (c :: tail) with
            | none =>
                simp only [hm]
                exact ih tail f2p (by omega) (by omega)
            | some pr =>
                obtain ⟨digits, afterColon⟩ := pr
                cases hc : completeMatch digits afterColon with
                | none =>
                    simp only [hm, hc]
                    exact ih tail f2p (by omega) (by omega)
                | some gr =>
                    obtain ⟨g0, r⟩ := gr
                    have hm' := matchHeaderPrefix_length_le hm
                    have hc' := completeMatch_rest_le hc
                    simp only [List.length_cons] at hm'
                    simp only [hm, hc]
                    congr 1
                    exact ih r f2p (by omega) (by omega)

theorem foldl_max_replicate_zero : ∀ n : Nat, (List.replicate n (0:ℚ)).foldl max 0 = 0
  | 0 => rfl
  | n + 1 => by
      rw [List.replicate_succ, List.foldl_cons, max_self]
      exact foldl_max_replicate_zero n

/-- C1 counterexample: the claim says the probe turns any statement-execution
error into a failed sample with duration 0 and never raises, but the
latency-mode probe `execute_query_timing` propagates the raised database
error to its caller instead of returning. -/
theorem C1_counterexample :
    execute_query_timing (Except.error ⟨"relation orders does not exist"⟩)
      = Except.error ⟨"relation orders does not exist"⟩ ∧
    execute_query_timing (Except.error ⟨"relation orders does not exist"⟩)
      ≠ Except.ok 0 :=
  ⟨rfl, fun h => Except.noConfusion h⟩

/-- C1 amended: only the throughput-mode probe `worker_execute_query`
converts a statement-execution error into a failed `(worker_id, 0.0, False)`
sample without raising; the latency-mode probe `execute_query_timing`
propagates every execution error to its caller, so a per-call execution
failure aborts the latency run instead of being tolerated. -/
theorem C1_amended (e : DBError) (wid : Nat) :
    execute_query_timing (Except.error e) = Except.error e ∧
    worker_execute_query .ok (Except.error e) wid = Except.ok (wid, 0, false) :=
  ⟨rfl, rfl⟩

/-- C2: the throughput runner rejects any concurrency outside [1,16] or
duration outside [20,60] with a configuration error (`sys.exit(1)`) before
parsing the catalog and before any probe call is issued. -/
theorem C2_config_rejection {α : Type} (c d : Int) (catalogFile : Option String)
    (work : List PQuery → α × Nat)
    (h : c < 1 ∨ 16 < c ∨ d < 20 ∨ 60 < d) :
    run_throughput_benchmark c d catalogFile work = (.error 1, 0) := by
  unfold run_throughput_benchmark
  by_cases h1 : c < 1 ∨ c > 16
  · rw [if_pos h1]
  · rw [if_neg h1, if_pos]
    rcases h with h | h | h | h
    · exact absurd (Or.inl h) h1
    · exact absurd (Or.inr h) h1
    · exact Or.inl h
    · exact Or.inr h

/-- C2 witness: the four inputs named by the spec (concurrency 0 and 17,
duration 10 and 61) are all rejected with a configuration error and zero
probe calls. -/
theorem C2_config_rejection_witness :
    run_throughput_benchmark 0 30 (some "") (fun _ : List PQuery => ((), 5)) = (.error 1, 0) ∧
    run_throughput_benchmark 17 30 (some "") (fun _ : List PQuery => ((), 5)) = (.error 1, 0) ∧
    run_throughput_benchmark 4 10 (some "") (fun _ : List PQuery => ((), 5)) = (.error 1, 0) ∧
    run_throughput_benchmark 4 61 (some "") (fun _ : List PQuery => ((), 5)) = (.error 1, 0) :=
  ⟨C2_config_rejection 0 30 (some "") (fun _ => ((), 5)) (Or.inl (by decide)),
   C2_config_rejection 17 30 (some "") (fun _ => ((), 5)) (Or.inr (Or.inl (by decide))),
   C2_config_rejection 4 10 (some "") (fun _ => ((), 5)) (Or.inr (Or.inr (Or.inl (by decide)))),
   C2_config_rejection 4 61 (some "") (fun _ => ((), 5)) (Or.inr (Or.inr (Or.inr (by decide))))⟩

/-- C5 counterexample: on an empty sample set the claim wants every
statistical field, including `stddev`, to be null, but the code's empty
branch sets `"stddev": 0.0` — a number, not null. -/
theorem C5_counterexample :
    (run_throughput_stats [] 3 25).stddevSq = some 0 ∧
    (run_throughput_stats [] 3 25).stddevSq ≠ none :=
  ⟨rfl, fun h => Option.noConfusion h⟩

/-- C5 amended: when the sample count is 0, the fields min, max, mean,
median, p50 and p99/p95 are all null in both the throughput and the latency
statistics, but `stddev` is reported as the number `0.0`, not null. -/
theorem C5_amended (f m : Nat) (d : ℚ) :
    (run_throughput_stats [] f d).total_queries = 0 ∧
    (run_throughput_stats [] f d).raw_timings = [] ∧
    (run_throughput_stats [] f d).min = none ∧
    (run_throughput_stats [] f d).max = none ∧
    (run_throughput_stats [] f d).mean = none ∧
    (run_throughput_stats [] f d).median = none ∧
    (run_throughput_stats [] f d).p50 = none ∧
    (run_throughput_stats [] f d).p95 = none ∧
    (run_throughput_stats [] f d).p99 = none ∧
    (run_throughput_stats [] f d).stddevSq = some 0 ∧
    (run_benchmark_stats [] m).min = none ∧
    (run_benchmark_stats [] m).max = none ∧
    (run_benchmark_stats [] m).mean = none ∧
    (run_benchmark_stats [] m).median = none ∧
    (run_benchmark_stats [] m).p50 = none ∧
    (run_benchmark_stats [] m).p95 = none ∧
    (run_benchmark_stats [] m).p99 = none ∧
    (run_benchmark_stats [] m).stddevSq = some 0 :=
  ⟨rfl, rfl, rfl, rfl, rfl, rfl, rfl, rfl, rfl, rfl,
   rfl, rfl, rfl, rfl, rfl, rfl, rfl, rfl⟩

/-- C6: a worker's connection-establishment failure does not become a
counted failure — `get_db_connection` calls `sys.exit(1)`, and the raised
`SystemExit` escapes both the worker's `except Exception` and the
collector's `except Exception`, aborting the whole throughput run. -/
theorem C6_conn_failure_aborts_run :
    worker_execute_query .operationalError (Except.ok 5) 0
      = Except.error (.systemExit 1) ∧
    collect_future (worker_execute_query .operationalError (Except.ok 5) 0)
      = Except.error (.systemExit 1) ∧
    collect_future (worker_execute_query .operationalError (Except.ok 5) 0)
      ≠ Except.ok none :=
  ⟨rfl, rfl, fun h => Except.noConfusion h⟩

/-- C8: the speedup is `no_index_value / with_index_value` (4.0 for
100 ms vs 25 ms) and is `None` — not zero — whenever the with-index value is
missing or zero. -/
theorem C8_speedup (x y : ℚ) (hy : y ≠ 0) :
    calculate_speedup (some x) (some y) = some (x / y) ∧
    calculate_speedup (some 100) (some 25) = some 4 ∧
    (∀ a : Option ℚ, calculate_speedup a none = none) ∧
    (∀ a : Option ℚ, calculate_speedup a (some 0) = none) := by
  refine ⟨?_, ?_, fun a => rfl, fun a => rfl⟩
  · simp only [calculate_speedup, if_neg hy]
  · simp only [calculate_speedup]
    norm_num

/-- C8 witness: the speedup of no-index p50 = 100 ms over with-index
p50 = 25 ms is 4.0. -/
theorem C8_speedup_witness :
    calculate_speedup (some 100) (some 25) = some (100 / 25) :=
  (C8_speedup 100 25 (by norm_num)).1

/-- C7 counterexample: the claim's "for every query, exactly 12 probe calls
and statistics over 10 samples" fails for a query whose statement raises —
the error propagates out of the very first (warmup) probe call, so the run
aborts after 1 call and returns no statistics. -/
theorem C7_counterexample :
    run_benchmark (fun _ => Except.error ⟨"column does not exist"⟩) 2 10 0
      = Except.error (⟨"column does not exist"⟩, 1) ∧
    (run_benchmark (fun _ => Except.error ⟨"column does not exist"⟩) 2 10 0).isOk = false :=
  ⟨rfl, rfl⟩

/-- C7 amended: when every probe call succeeds, the latency runner with
`warmup_runs = 2` and `measurement_runs = 10` issues exactly 12 sequential
probe calls — the counter advances from `c` to `c + 12` — and returns
statistics computed over exactly the 10 samples of probe calls 2 through 11
(the 2 warmup results are discarded); a probe call that raises instead
aborts the run mid-loop (shown here for the first call: one call issued, no
statistics), the error propagating to the caller. -/
theorem C7_amended (dur : Nat → ℚ) (e : DBError) (c : Nat) :
    run_benchmark (fun k => Except.ok (dur k)) 2 10 c
      = Except.ok
          (run_benchmark_stats ((List.range 10).map (fun i => dur (c + 2 + i))) 10, c + 12) ∧
    (run_benchmark (fun k => Except.ok (dur k)) 2 10 c).map
        (fun res => res.1.raw_timings.length)
      = Except.ok 10 ∧
    (run_benchmark (fun k => Except.ok (dur k)) 2 10 c).map (fun res => res.1.runs)
      = Except.ok 10 ∧
    run_benchmark (fun _ => Except.error e) 2 10 c = Except.error (e, c + 1) := by
  have h : run_benchmark (fun k => Except.ok (dur k)) 2 10 c
      = Except.ok
          (run_benchmark_stats ((List.range 10).map (fun i => dur (c + 2 + i))) 10, c + 12) := by
    unfold run_benchmark
    simp only [warmupLoop_ok, measureLoop_ok]
  refine ⟨h, ?_, ?_, rfl⟩
  · rw [h]
    show Except.ok ((List.range 10).map (fun i => dur (c + 2 + i))).length = Except.ok 10
    rw [List.length_map, List.length_range]
  · rw [h]
    rfl

/-- C3: for every non-empty list of non-negative durations the aggregated
statistics satisfy `min ≤ p50 ≤ p95 ≤ p99 ≤ max`, and the returned `p50`
equals the returned `median`. -/
theorem C3_percentile_order (l : List ℚ) (runsN : Nat) (hne : l ≠ [])
    (hnn : ∀ x ∈ l, 0 ≤ x) :
    ∃ mn p50v p95v p99v mx : ℚ,
      (run_benchmark_stats l runsN).min = some mn ∧
      (run_benchmark_stats l runsN).p50 = some p50v ∧
      (run_benchmark_stats l runsN).p95 = some p95v ∧
      (run_benchmark_stats l runsN).p99 = some p99v ∧
      (run_benchmark_stats l runsN).max = some mx ∧
      mn ≤ p50v ∧ p50v ≤ p95v ∧ p95v ≤ p99v ∧ p99v ≤ mx ∧
      (run_benchmark_stats l runsN).p50 = (run_benchmark_stats l runsN).median := by
  obtain ⟨mn, hmn, _, hmnle⟩ := pyMin_spec l hne
  obtain ⟨mx, hmx, _, hlemx⟩ := pyMax_spec l hne
  obtain ⟨p50v, hp50, hp50lower, hp50upper⟩ := pyMedian_spec l hne
  have hpos : 0 < l.length := List.length_pos.mpr hne
  have hsne : sortTimings l ≠ [] := sortTimings_ne_nil l hne
  have hlen : (sortTimings l).length = l.length := sortTimings_length l
  have h95 := percentile_eq (sortTimings l) hsne 95
  have h99 := percentile_eq (sortTimings l) hsne 99
  rw [hlen] at h95 h99
  have hk95lt : min (95 * l.length / 100) (l.length - 1) < l.length := by omega
  have hk99lt : min (99 * l.length / 100) (l.length - 1) < l.length := by omega
  have hmid95 : l.length / 2 ≤ min (95 * l.length / 100) (l.length - 1) := by omega
  have hk9599 : min (95 * l.length / 100) (l.length - 1)
      ≤ min (99 * l.length / 100) (l.length - 1) := by
    have hdd : 95 * l.length / 100 ≤ 99 * l.length / 100 :=
      Nat.div_le_div_right (by omega)
    omega
  refine ⟨mn, p50v,
    (sortTimings l).getD (min (95 * l.length / 100) (l.length - 1)) 0,
    (sortTimings l).getD (min (99 * l.length / 100) (l.length - 1)) 0,
    mx, ?_, ?_, ?_, ?_, ?_, ?_, ?_, ?_, ?_, rfl⟩
  · exact hmn
  · exact hp50
  · show percentile (sortTimings l) 95 = _
    rw [show (95 : ℚ) = ((95 : ℕ) : ℚ) by norm_cast]
    exact h95
  · show percentile (sortTimings l) 99 = _
    rw [show (99 : ℚ) = ((99 : ℕ) : ℚ) by norm_cast]
    exact h99
  · exact hmx
  · exact hp50lower mn hmnle
  · exact hp50upper _ hmid95 hk95lt
  · exact sortTimings_getD_mono l hk9599 hk99lt
  · exact hlemx _ (sortTimings_getD_mem l _ hk99lt)

/-- C3 witness: the ordering chain instantiated at the concrete non-empty
non-negative sample set [10, 20, 30, 40, 50]. -/
theorem C3_percentile_order_witness :
    ∃ mn p50v p95v p99v mx : ℚ,
      (run_benchmark_stats [10, 20, 30, 40, 50] 5).min = some mn ∧
      (run_benchmark_stats [10, 20, 30, 40, 50] 5).p50 = some p50v ∧
      (run_benchmark_stats [10, 20, 30, 40, 50] 5).p95 = some p95v ∧
      (run_benchmark_stats [10, 20, 30, 40, 50] 5).p99 = some p99v ∧
      (run_benchmark_stats [10, 20, 30, 40, 50] 5).max = some mx ∧
      mn ≤ p50v ∧ p50v ≤ p95v ∧ p95v ≤ p99v ∧ p99v ≤ mx ∧
      (run_benchmark_stats [10, 20, 30, 40, 50] 5).p50
        = (run_benchmark_stats [10, 20, 30, 40, 50] 5).median :=
  C3_percentile_order [10, 20, 30, 40, 50] 5 (by decide) (by decide)

/-- C4: on the synthetic sample set [10, 20, 30, 40, 50] the aggregator
returns mean 30, median = p50 = 30, p95 = p99 = 50 (nearest-rank index
`int(0.95 * 5) = int(0.99 * 5) = 4`), min 10 and max 50. -/
theorem C4_synthetic_sample :
    (run_benchmark_stats [10, 20, 30, 40, 50] 5).mean = some 30 ∧
    (run_benchmark_stats [10, 20, 30, 40, 50] 5).median = some 30 ∧
    (run_benchmark_stats [10, 20, 30, 40, 50] 5).p50 = some 30 ∧
    (run_benchmark_stats [10, 20, 30, 40, 50] 5).p95 = some 50 ∧
    (run_benchmark_stats [10, 20, 30, 40, 50] 5).p99 = some 50 ∧
    (run_benchmark_stats [10, 20, 30, 40, 50] 5).min = some 10 ∧
    (run_benchmark_stats [10, 20, 30, 40, 50] 5).max = some 50 ∧
    (((95 : ℕ) : ℚ) / 100 * ((5 : ℕ) : ℚ)).floor.toNat = 4 ∧
    (((99 : ℕ) : ℚ) / 100 * ((5 : ℕ) : ℚ)).floor.toNat = 4 := by
  have hsort : sortTimings [10, 20, 30, 40, 50] = [10, 20, 30, 40, 50] := rfl
  refine ⟨?_, rfl, rfl, ?_, ?_, rfl, rfl, ?_, ?_⟩
  · show pyMean [10, 20, 30, 40, 50] = some 30
    unfold pyMean
    rw [if_neg (by decide)]
    simp only [List.sum_cons, List.sum_nil, List.length_cons, List.length_nil]
    norm_num
  · show percentile (sortTimings [10, 20, 30, 40, 50]) 95 = some 50
    rw [hsort, show (95 : ℚ) = ((95 : ℕ) : ℚ) by norm_cast,
      percentile_eq _ (by decide)]
    rfl
  · show percentile (sortTimings [10, 20, 30, 40, 50]) 99 = some 50
    rw [hsort, show (99 : ℚ) = ((99 : ℕ) : ℚ) by norm_cast,
      percentile_eq _ (by decide)]
    rfl
  · rw [show ((5 : ℕ) : ℚ) = (((5 : ℕ) : ℕ) : ℚ) by norm_cast, floorIndex_eq]
  · rw [show ((5 : ℕ) : ℚ) = (((5 : ℕ) : ℕ) : ℚ) by norm_cast, floorIndex_eq]

/-- C10: the persisted `raw_timings` of a throughput statistics block is the
truncation `execution_times[:1000]` (so at most the first 1000 collected
successful latencies), while min, max, mean, median, p50, p95, p99 and
stddev are computed over the full collected list; on the concrete 1001-entry
list `0 :: (replicate 999 0 ++ [1])` the reported max is 1 even though 1 is
absent from the truncated `raw_timings`. -/
theorem C10_raw_truncation :
    (∀ (l : List ℚ) (f : Nat) (d : ℚ),
      (run_throughput_stats l f d).raw_timings = l.take 1000 ∧
      (run_throughput_stats l f d).raw_timings.length ≤ 1000 ∧
      (l ≠ [] →
        (run_throughput_stats l f d).min = pyMin l ∧
        (run_throughput_stats l f d).max = pyMax l ∧
        (run_throughput_stats l f d).mean = pyMean l ∧
        (run_throughput_stats l f d).median = pyMedian l ∧
        (run_throughput_stats l f d).p50 = pyMedian l ∧
        (run_throughput_stats l f d).p95 = percentile (sortTimings l) 95 ∧
        (run_throughput_stats l f d).p99 = percentile (sortTimings l) 99 ∧
        (run_throughput_stats l f d).stddevSq
          = (if 1 < l.length then some (sampleVarianceQ l) else some 0))) ∧
    (run_throughput_stats ((0 : ℚ) :: (List.replicate 999 (0 : ℚ) ++ [1])) 0 30).max
      = some 1 ∧
    (1 : ℚ) ∉
      (run_throughput_stats ((0 : ℚ) :: (List.replicate 999 (0 : ℚ) ++ [1])) 0 30).raw_timings := by
  have hmain : ∀ (l : List ℚ) (f : Nat) (d : ℚ),
      (run_throughput_stats l f d).raw_timings = l.take 1000 ∧
      (run_throughput_stats l f d).raw_timings.length ≤ 1000 ∧
      (l ≠ [] →
        (run_throughput_stats l f d).min = pyMin l ∧
        (run_throughput_stats l f d).max = pyMax l ∧
        (run_throughput_stats l f d).mean = pyMean l ∧
        (run_throughput_stats l f d).median = pyMedian l ∧
        (run_throughput_stats l f d).p50 = pyMedian l ∧
        (run_throughput_stats l f d).p95 = percentile (sortTimings l) 95 ∧
        (run_throughput_stats l f d).p99 = percentile (sortTimings l) 99 ∧
        (run_throughput_stats l f d).stddevSq
          = (if 1 < l.length then some (sampleVarianceQ l) else some 0)) := by
    intro l f d
    by_cases hl : l = []
    · subst hl
      refine ⟨rfl, by rw [show (run_throughput_stats [] f d).raw_timings = [] from rfl]; decide,
        fun hc => absurd rfl hc⟩
    · have hraw : (run_throughput_stats l f d).raw_timings = l.take 1000 := by
        simp only [run_throughput_stats]
        rw [if_pos hl]
      refine ⟨hraw, ?_, fun _ => ?_⟩
      · rw [hraw, List.length_take]
        omega
      · simp only [run_throughput_stats]
        rw [if_pos hl]
        exact ⟨rfl, rfl, rfl, rfl, rfl, rfl, rfl, rfl⟩
  have hne : ((0 : ℚ) :: (List.replicate 999 (0 : ℚ) ++ [1])) ≠ [] := by
    exact List.cons_ne_nil _ _
  have hmax : pyMax ((0 : ℚ) :: (List.replicate 999 (0 : ℚ) ++ [1])) = some 1 := by
    show some ((List.replicate 999 (0 : ℚ) ++ [(1 : ℚ)]).foldl max (0 : ℚ)) = some (1 : ℚ)
    rw [List.foldl_append, foldl_max_replicate_zero]
    norm_num
  refine ⟨hmain, ?_, ?_⟩
  · rw [((hmain _ 0 30).2.2 hne).2.1, hmax]
  · rw [(hmain _ 0 30).1]
    have htake : ((0 : ℚ) :: (List.replicate 999 (0 : ℚ) ++ [1])).take 1000
        = (0 : ℚ) :: List.replicate 999 (0 : ℚ) := by
      rw [show (1000 : ℕ) = 999 + 1 by norm_num, List.take_succ_cons,
        List.take_left' (by rw [List.length_replicate])]
    rw [htake]
    intro hmem
    rcases List.mem_cons.mp hmem with h | h
    · norm_num at h
    · have := List.eq_of_mem_replicate h
      norm_num at this

/-- C10 witness: the dataflow facts instantiated at the concrete non-empty
list [5]. -/
theorem C10_raw_truncation_witness :
    (run_throughput_stats [(5 : ℚ)] 0 30).raw_timings = [(5 : ℚ)].take 1000 ∧
    (run_throughput_stats [(5 : ℚ)] 0 30).max = pyMax [(5 : ℚ)] :=
  ⟨(C10_raw_truncation.1 [(5 : ℚ)] 0 30).1,
   ((C10_raw_truncation.1 [(5 : ℚ)] 0 30).2.2 (by decide)).2.1⟩
